import Mathlib

/-!
# Verification of the `prop.Navigator` (pkg/v2/prop/navigator.go)

The repository consists of a single file implementing a stack-based cursor
(`Navigator`) over an abstract property tree.  The tree nodes (`Property`),
the change events (`Event`) and the error values produced by delegated
operations are external collaborators; the Navigator only consumes their
capability contract.  We embed that contract as an explicit operations
environment `PropOps` over abstract types:

* `π`   — node references (Go `Property`, a pointer/interface value),
* `ε`   — errors raised by the external collaborator (Go `error`),
* `Ev`  — change events (Go `*Event`); `toEvents` is `Event.ToEvents`,
* `Val` — mutation payloads (Go `interface{}`).

The Navigator state is exactly the Go struct `defaultNavigator`:
a stack of node references (index 0 = source, last = current) and a sticky
error slot.  Errors manufactured by the Navigator itself (`Dot`, `At`,
`Where` failures wrapping `spec.ErrInvalidPath` / `spec.ErrNoTarget`) and
errors stored verbatim from the collaborator are distinguished by the
`NavErr` type.

Go mutates the receiver in place; the embedding passes the state
explicitly: every method takes a `Navigator` and returns the updated one.
The mutation methods additionally return the ordered list of
`Notify` invocations they performed (receiver node paired with the event
sequence passed), so that the upward-propagation claims are statable;
this trace is a pure observation of the loop in `delegateMod` and does not
alter the state evolution.
-/

/-- Errors held in the Navigator's sticky slot.  `invalidPath` is the
`Dot` failure wrapping `spec.ErrInvalidPath` (carrying the requested name
and the current node's path); `noTargetIndex` / `noTargetCriteria` are the
`At` / `Where` failures wrapping `spec.ErrNoTarget`; `external` is an
error of the collaborator stored verbatim. -/
inductive NavErr (ε : Type) where
  | invalidPath (name : String) (path : String)
  | noTargetIndex (index : Int) (path : String)
  | noTargetCriteria (path : String)
  | external (e : ε)
deriving DecidableEq, Repr

/-- The node capability contract consumed by the Navigator (spec §6).
`childAtName` and `childAtIdx` are the two uses of Go's
`Property.ChildAtIndex(index interface{})`, which is called with a
`string` from `Dot` and an `int` from `At`; `path` is
`Property.Attribute().Path()`, used only in diagnostic messages. -/
structure PropOps (π ε Ev Val : Type) where
  childAtName : π → String → Except ε π
  childAtIdx : π → Int → Except ε π
  findChild : π → (π → Bool) → Option π
  forEachChild : π → (Int → π → Option ε) → Option ε
  add : π → Val → Except ε (Option Ev)
  replace : π → Val → Except ε (Option Ev)
  delete : π → Except ε (Option Ev)
  notify : π → List Ev → Option ε
  toEvents : Ev → List Ev
  path : π → String

/-- The state of `defaultNavigator`: the trace stack (element 0 is the
source, the last element is the current focus) and the sticky error. -/
structure Navigator (π ε : Type) where
  stack : List π
  err : Option (NavErr ε)
deriving DecidableEq, Repr

namespace Navigator

variable {π ε Ev Val : Type}

/-- Go `Navigate(property)`: a navigator seeded with the one-element stack. -/
def Navigate (property : π) : Navigator π ε :=
  { stack := [property], err := none }

/-- Go `Error()`. -/
def Error (n : Navigator π ε) : Option (NavErr ε) :=
  n.err

/-- Go `HasError()`. -/
def HasError (n : Navigator π ε) : Bool :=
  n.err.isSome

/-- Go `ClearError()`. -/
def ClearError (n : Navigator π ε) : Navigator π ε :=
  { n with err := none }

/-- Go `Depth()`: the stack length. -/
def Depth (n : Navigator π ε) : Nat :=
  n.stack.length

/-- Go `Source()`: `n.stack[0]`.  Go would panic on an empty stack; the
stack is provably never empty (see the stack invariant), so we return an
`Option` that is always `some` on reachable states. -/
def Source (n : Navigator π ε) : Option π :=
  n.stack.head?

/-- Go `Current()`: `n.stack[len(n.stack)-1]`, as an `Option` (see `Source`). -/
def Current (n : Navigator π ε) : Option π :=
  n.stack.getLast?

/-- Go `Retract()`: drop the last stack element if the depth exceeds 1;
otherwise a no-op.  The sticky error is neither consulted nor changed. -/
def Retract (n : Navigator π ε) : Navigator π ε :=
  if n.Depth > 1 then { n with stack := n.stack.dropLast } else n

/-- Go `Dot(name)`: no-op when the sticky error is set; otherwise resolve
`Current().ChildAtIndex(name)` and push the child, or set the sticky
error to the invalid-path fault.  The `Current = none` branch is
unreachable on states with a nonempty stack (Go would panic there). -/
def Dot (ops : PropOps π ε Ev Val) (n : Navigator π ε) (name : String) :
    Navigator π ε :=
  match n.err with
  | some _ => n
  | none =>
    match n.Current with
    | none => n
    | some cur =>
      match ops.childAtName cur name with
      | .error _ => { n with err := some (.invalidPath name (ops.path cur)) }
      | .ok child => { n with stack := n.stack ++ [child] }

/-- Go `At(index)`: like `Dot` but by position, failing with a no-target
fault carrying the index. -/
def At (ops : PropOps π ε Ev Val) (n : Navigator π ε) (index : Int) :
    Navigator π ε :=
  match n.err with
  | some _ => n
  | none =>
    match n.Current with
    | none => n
    | some cur =>
      match ops.childAtIdx cur index with
      | .error _ => { n with err := some (.noTargetIndex index (ops.path cur)) }
      | .ok child => { n with stack := n.stack ++ [child] }

/-- Go `Where(criteria)`: push the first child satisfying the predicate, or
set a no-target fault when `FindChild` returns nil. -/
def Where (ops : PropOps π ε Ev Val) (n : Navigator π ε)
    (criteria : π → Bool) : Navigator π ε :=
  match n.err with
  | some _ => n
  | none =>
    match n.Current with
    | none => n
    | some cur =>
      match ops.findChild cur criteria with
      | none => { n with err := some (.noTargetCriteria (ops.path cur)) }
      | some child => { n with stack := n.stack ++ [child] }

/-- Go `ForEachChild(callback)`: return the sticky error when set, otherwise
delegate the iteration to the current node and return whatever it raises.
The second component is the receiver state after the call: the Go method
never assigns to `n.err` or `n.stack`, so it is `n` itself. -/
def ForEachChild (ops : PropOps π ε Ev Val) (n : Navigator π ε)
    (callback : Int → π → Option ε) :
    Option (NavErr ε) × Navigator π ε :=
  match n.err with
  | some e => (some e, n)
  | none =>
    match n.Current with
    | none => (none, n)
    | some cur => ((ops.forEachChild cur callback).map .external, n)

/-- The upward-notification loop of `delegateMod`:
`for i := len(n.stack)-1; i >= 0; i-- { n.stack[i].Notify(events) }`,
stopping at the first failure.  The argument list is the stack in
iteration order (reversed: current first, source last).  Besides the
first error, it returns the ordered trace of `Notify` invocations made
(receiver node, event sequence passed). -/
def notifyUp (notify : π → List Ev → Option ε) (events : List Ev) :
    List π → Option ε × List (π × List Ev)
  | [] => (none, [])
  | p :: ps =>
    match notify p events with
    | some e => (some e, [(p, events)])
    | none =>
      let r := notifyUp notify events ps
      (r.1, (p, events) :: r.2)

/-- Go `delegateMod(mod)`: short-circuit on the sticky error; run the
delegated mutation on the current node; on success with a non-nil event,
flatten it with `ToEvents` and replay it upward along the stack.  Returns
the value assigned to `n.err` by the caller, plus the `Notify` trace. -/
def delegateMod (ops : PropOps π ε Ev Val) (n : Navigator π ε)
    (mod : π → Except ε (Option Ev)) :
    Option (NavErr ε) × List (π × List Ev) :=
  match n.err with
  | some e => (some e, [])
  | none =>
    match n.Current with
    | none => (none, [])
    | some cur =>
      match mod cur with
      | .error e => (some (.external e), [])
      | .ok none => (none, [])
      | .ok (some ev) =>
        let events := ops.toEvents ev
        let r := notifyUp ops.notify events n.stack.reverse
        (r.1.map .external, r.2)

/-- Go `Add(value)`: `n.err = n.delegateMod(func() { return Current().Add(value) })`. -/
def Add (ops : PropOps π ε Ev Val) (n : Navigator π ε) (value : Val) :
    Navigator π ε × List (π × List Ev) :=
  let r := delegateMod ops n (fun cur => ops.add cur value)
  ({ n with err := r.1 }, r.2)

/-- Go `Replace(value)`: delegate `Replace` on the current node. -/
def Replace (ops : PropOps π ε Ev Val) (n : Navigator π ε) (value : Val) :
    Navigator π ε × List (π × List Ev) :=
  let r := delegateMod ops n (fun cur => ops.replace cur value)
  ({ n with err := r.1 }, r.2)

/-- Go `Delete()`: delegate `Delete` on the current node. -/
def Delete (ops : PropOps π ε Ev Val) (n : Navigator π ε) :
    Navigator π ε × List (π × List Ev) :=
  let r := delegateMod ops n (fun cur => ops.delete cur)
  ({ n with err := r.1 }, r.2)

end Navigator

/-- One navigation call of the kind counted by the depth property:
a `Dot`, `At` or `Where` invocation with its argument. -/
inductive NavStep (π : Type) where
  | dot (name : String)
  | atIdx (index : Int)
  | whereIs (criteria : π → Bool)

/-- Run one navigation step on a navigator. -/
def applyStep {π ε Ev Val : Type} (ops : PropOps π ε Ev Val)
    (n : Navigator π ε) : NavStep π → Navigator π ε
  | .dot name => Navigator.Dot ops n name
  | .atIdx index => Navigator.At ops n index
  | .whereIs criteria => Navigator.Where ops n criteria

/-- Run a finite sequence of `Dot`/`At`/`Where` calls, left to right. -/
def runSteps {π ε Ev Val : Type} (ops : PropOps π ε Ev Val) :
    Navigator π ε → List (NavStep π) → Navigator π ε
  | n, [] => n
  | n, s :: rest => runSteps ops (applyStep ops n s) rest

/-- Number of calls in the sequence that resolve successfully before the
first failure (all of them when none fails): simulate, stopping the count
at the first step that leaves the navigator in the error state. -/
def succPrefix {π ε Ev Val : Type} (ops : PropOps π ε Ev Val)
    (n : Navigator π ε) : List (NavStep π) → Nat
  | [] => 0
  | s :: rest =>
    let n2 := applyStep ops n s
    if n2.err.isSome then 0 else succPrefix ops n2 rest + 1

/-- One call to any Navigator method that takes and returns the cursor
(every method except the pure accessors), with its argument. -/
inductive NavOp (π ε Ev Val : Type) where
  | dot (name : String)
  | atIdx (index : Int)
  | whereIs (criteria : π → Bool)
  | retract
  | clearError
  | add (value : Val)
  | replace (value : Val)
  | delete
  | forEachChild (callback : Int → π → Option ε)

/-- Run one Navigator method call, keeping the resulting cursor state. -/
def applyOp {π ε Ev Val : Type} (ops : PropOps π ε Ev Val)
    (n : Navigator π ε) : NavOp π ε Ev Val → Navigator π ε
  | .dot name => Navigator.Dot ops n name
  | .atIdx index => Navigator.At ops n index
  | .whereIs criteria => Navigator.Where ops n criteria
  | .retract => n.Retract
  | .clearError => n.ClearError
  | .add value => (Navigator.Add ops n value).1
  | .replace value => (Navigator.Replace ops n value).1
  | .delete => (Navigator.Delete ops n).1
  | .forEachChild callback => (Navigator.ForEachChild ops n callback).2

/-- Run a finite sequence of Navigator method calls, left to right. -/
def runOps {π ε Ev Val : Type} (ops : PropOps π ε Ev Val) :
    Navigator π ε → List (NavOp π ε Ev Val) → Navigator π ε
  | n, [] => n
  | n, o :: rest => runOps ops (applyOp ops n o) rest

/-- A small concrete instantiation of the node capability, used to
evaluate the theorems on explicit inputs.  Nodes are numbers: 0 is the
root with child "emails" = 1, node 1 has element 0 = 2, node 2 has child
"value" = 3.  Mutations succeed with an event on node 3, fail on node 5,
and succeed with a nil event elsewhere.  Notification fails on node 9 and
succeeds elsewhere; iteration fails on every node but the root. -/
def demoOps : PropOps Nat String Nat Nat where
  childAtName := fun cur name =>
    if cur = 0 ∧ name = "emails" then .ok 1
    else if cur = 2 ∧ name = "value" then .ok 3
    else .error "not found"
  childAtIdx := fun cur index =>
    if cur = 1 ∧ index = 0 then .ok 2 else .error "not found"
  findChild := fun cur criteria =>
    if cur = 1 ∧ criteria 2 then some 2 else none
  forEachChild := fun cur callback =>
    if cur = 0 then callback 0 1 else some "iteration failed"
  add := fun cur value =>
    if cur = 3 then .ok (some value)
    else if cur = 5 then .error "add failed" else .ok none
  replace := fun cur value =>
    if cur = 3 then .ok (some value)
    else if cur = 5 then .error "replace failed" else .ok none
  delete := fun cur =>
    if cur = 3 then .ok (some 42)
    else if cur = 5 then .error "delete failed" else .ok none
  notify := fun p _ => if p = 9 then some "veto" else none
  toEvents := fun ev => [ev, ev + 1]
  path := fun p => toString p

/-- A clear navigator focused on node 3 along the path 0, 1, 2, 3. -/
def demoNav : Navigator Nat String :=
  { stack := [0, 1, 2, 3], err := none }

/-- A clear navigator whose middle stack level 9 vetoes notifications. -/
def demoNavVeto : Navigator Nat String :=
  { stack := [0, 9, 3], err := none }

/-- A clear navigator focused on node 5, where mutations fail. -/
def demoNavModErr : Navigator Nat String :=
  { stack := [0, 5], err := none }

/-- A clear navigator focused on node 4, where mutations yield nil events. -/
def demoNavNull : Navigator Nat String :=
  { stack := [0, 4], err := none }

/-- A faulted navigator: an invalid-path error is stuck in the slot. -/
def demoNavFaulted : Navigator Nat String :=
  { stack := [0, 1], err := some (.invalidPath "foo" "1") }

namespace Navigator

variable {π ε Ev Val : Type}

/-- A nonempty list has a last element. -/
theorem exists_getLast?_eq_some {l : List π} (h : l ≠ []) :
    ∃ cur, l.getLast? = some cur := by
  cases hl : l.getLast? with
  | none => exact absurd (List.getLast?_eq_none_iff.mp hl) h
  | some cur => exact ⟨cur, rfl⟩

/-- When every receiver accepts, the notification loop visits the whole
list in order and reports no error. -/
theorem notifyUp_all_ok (notify : π → List Ev → Option ε) (events : List Ev) :
    ∀ l : List π, (∀ p ∈ l, notify p events = none) →
      notifyUp notify events l = (none, l.map fun p => (p, events))
  | [], _ => rfl
  | p :: ps, h => by
    have hp : notify p events = none := h p (List.mem_cons_self p ps)
    have ih := notifyUp_all_ok notify events ps
      (fun q hq => h q (List.mem_cons_of_mem p hq))
    simp [notifyUp, hp, ih]

/-- The notification loop stops at the first failing receiver, visiting
exactly the accepting prefix and the failing node. -/
theorem notifyUp_first_fail (notify : π → List Ev → Option ε)
    (events : List Ev) (p : π) (e : ε) (hp : notify p events = some e) :
    ∀ (pre post : List π), (∀ q ∈ pre, notify q events = none) →
      notifyUp notify events (pre ++ p :: post) =
        (some e, (pre ++ [p]).map fun q => (q, events))
  | [], post, _ => by simp [notifyUp, hp]
  | q :: pre, post, h => by
    have hq : notify q events = none := h q (List.mem_cons_self q pre)
    have ih := notifyUp_first_fail notify events p e hp pre post
      (fun r hr => h r (List.mem_cons_of_mem q hr))
    simp [notifyUp, hq, ih]

end Navigator

namespace Navigator

variable {π ε Ev Val : Type}

/-- C4: `Retract()` at depth 1 is a no-op on the whole state; at depth
greater than 1 it drops exactly the last stack element, reducing the
depth by 1 and restoring the `Current()` of the state before the last
push; in every case the sticky error is neither consulted nor changed. -/
theorem retract_spec (n : Navigator π ε) :
    n.Retract.err = n.err ∧
    (n.Depth = 1 → n.Retract = n) ∧
    (1 < n.Depth →
      n.Retract.Depth = n.Depth - 1 ∧ n.Retract.stack = n.stack.dropLast) ∧
    (∀ (m : Navigator π ε) (c : π), m.stack ≠ [] → n.stack = m.stack ++ [c] →
      n.Retract.stack = m.stack ∧ n.Retract.Current = m.Current) := by
  refine ⟨?_, ?_, ?_, ?_⟩
  · unfold Retract; split <;> rfl
  · intro h1; unfold Retract; rw [h1]; simp
  · intro h
    have hgt : 1 < n.stack.length := h
    simp [Retract, Depth, hgt, List.length_dropLast]
  · intro m c hm hstack
    have hlen : 1 < n.Depth := by
      have h0 : 0 < m.stack.length := List.length_pos.mpr hm
      simp [Depth, hstack]
      omega
    have hdrop : n.Retract.stack = m.stack := by
      simp [Retract, hlen, hstack, List.dropLast_concat]
    exact ⟨hdrop, by simp [Current, hdrop]⟩

/-- C4 witness: retraction at depth 1 is the identity, and retraction of
the four-level demo navigator restores the three-level state. -/
theorem retract_spec_witness :
    Navigator.Retract { stack := [0], err := none } =
      ({ stack := [0], err := none } : Navigator Nat String) ∧
    (Navigator.Retract demoNav).stack = [0, 1, 2] ∧
    (Navigator.Retract demoNav).Current = some 2 :=
  ⟨(Navigator.retract_spec _).2.1 rfl,
   ((Navigator.retract_spec demoNav).2.2.2
      { stack := [0, 1, 2], err := none } 3 (by decide) rfl).1,
   ((Navigator.retract_spec demoNav).2.2.2
      { stack := [0, 1, 2], err := none } 3 (by decide) rfl).2⟩

/-- C5: on a clear navigator, a failed `Dot` resolution sets the sticky
error to the invalid-path fault carrying the requested name and the
current node's path; failed `At` and `Where` resolutions set the
no-target faults; in each case the stack is unchanged (the whole
resulting state is the old one with only the error slot filled). -/
theorem resolution_failure_sets_fault (ops : PropOps π ε Ev Val)
    (n : Navigator π ε) (cur : π) (name : String) (index : Int)
    (criteria : π → Bool) (hclear : n.err = none)
    (hcur : n.Current = some cur) :
    (∀ e, ops.childAtName cur name = .error e →
      Dot ops n name =
        { n with err := some (.invalidPath name (ops.path cur)) }) ∧
    (∀ e, ops.childAtIdx cur index = .error e →
      At ops n index =
        { n with err := some (.noTargetIndex index (ops.path cur)) }) ∧
    (ops.findChild cur criteria = none →
      Where ops n criteria =
        { n with err := some (.noTargetCriteria (ops.path cur)) }) := by
  refine ⟨fun e he => ?_, fun e he => ?_, fun hf => ?_⟩
  · simp [Dot, hclear, hcur, he]
  · simp [At, hclear, hcur, he]
  · simp [Where, hclear, hcur, hf]

/-- C5 witness: `Dot "missing"` on the demo navigator (current node 3)
fails and records the invalid-path fault; `At 7` and a never-true
`Where` record the no-target faults; the stack stays `[0, 1, 2, 3]`. -/
theorem resolution_failure_sets_fault_witness :
    Navigator.Dot demoOps demoNav "missing" =
      { stack := [0, 1, 2, 3], err := some (.invalidPath "missing" "3") } ∧
    Navigator.At demoOps demoNav 7 =
      { stack := [0, 1, 2, 3], err := some (.noTargetIndex 7 "3") } ∧
    Navigator.Where demoOps demoNav (fun _ => false) =
      { stack := [0, 1, 2, 3], err := some (.noTargetCriteria "3") } :=
  ⟨(Navigator.resolution_failure_sets_fault demoOps demoNav 3 "missing" 7
      (fun _ => false) rfl rfl).1 "not found" rfl,
   (Navigator.resolution_failure_sets_fault demoOps demoNav 3 "missing" 7
      (fun _ => false) rfl rfl).2.1 "not found" rfl,
   (Navigator.resolution_failure_sets_fault demoOps demoNav 3 "missing" 7
      (fun _ => false) rfl rfl).2.2 rfl⟩

/-- C6: on a faulted navigator every navigation and mutation entry point
is inert for any capability environment and any argument: `Dot`, `At`,
`Where` return the state unchanged; `Add`, `Replace`, `Delete` return
the state unchanged with an empty notification trace; `ForEachChild`
returns the stored error and the unchanged state.  Quantification over
`ops` shows no node capability can be consulted, and repetition yields
the same state, hence idempotence. -/
theorem faulted_methods_are_noops (ops : PropOps π ε Ev Val)
    (n : Navigator π ε) (e : NavErr ε) (he : n.err = some e)
    (name : String) (index : Int) (criteria : π → Bool) (value : Val)
    (callback : Int → π → Option ε) :
    Dot ops n name = n ∧ At ops n index = n ∧ Where ops n criteria = n ∧
    Add ops n value = (n, []) ∧ Replace ops n value = (n, []) ∧
    Delete ops n = (n, []) ∧ ForEachChild ops n callback = (some e, n) := by
  obtain ⟨stack, err⟩ := n
  simp only [mk.injEq] at he ⊢
  subst he
  refine ⟨?_, ?_, ?_, ?_, ?_, ?_, ?_⟩ <;>
    simp [Dot, At, Where, Add, Replace, Delete, ForEachChild, delegateMod]

/-- C6 witness: the faulted demo navigator is unchanged by `Dot` and
`Add`, and `ForEachChild` returns the stored error. -/
theorem faulted_methods_are_noops_witness :
    Navigator.Dot demoOps demoNavFaulted "emails" = demoNavFaulted ∧
    Navigator.Add demoOps demoNavFaulted 5 = (demoNavFaulted, []) ∧
    (Navigator.ForEachChild demoOps demoNavFaulted fun _ _ => none) =
      (some (.invalidPath "foo" "1"), demoNavFaulted) := by
  have h := Navigator.faulted_methods_are_noops demoOps demoNavFaulted
    (.invalidPath "foo" "1") rfl "emails" 0 (fun _ => true) 5 (fun _ _ => none)
  exact ⟨h.1, h.2.2.2.1, h.2.2.2.2.2.2⟩

/-- C7: `ClearError` resets exactly the error slot: the stack is kept as
it is, no prior stack state is restored, and a subsequently resolving
`Dot` pushes the child normally. -/
theorem clearError_only_resets_error (ops : PropOps π ε Ev Val)
    (n : Navigator π ε) (cur child : π) (name : String)
    (hcur : n.Current = some cur)
    (hres : ops.childAtName cur name = .ok child) :
    n.ClearError.stack = n.stack ∧ n.ClearError.err = none ∧
    Dot ops n.ClearError name =
      { stack := n.stack ++ [child], err := none } := by
  refine ⟨rfl, rfl, ?_⟩
  have hc : n.stack.getLast? = some cur := hcur
  simp [Dot, ClearError, Current, hc, hres]

/-- C7 witness: clearing a faulted one-level navigator and then calling
`Dot "emails"` pushes child 1. -/
theorem clearError_only_resets_error_witness :
    Navigator.Dot demoOps
      (Navigator.ClearError
        { stack := [0], err := some (.invalidPath "foo" "0") }) "emails" =
      ({ stack := [0, 1], err := none } : Navigator Nat String) :=
  (Navigator.clearError_only_resets_error demoOps
    { stack := [0], err := some (.invalidPath "foo" "0") } 0 1 "emails"
    rfl rfl).2.2

/-- C8 counterexample: on the clear demo navigator (current node 3,
whose iteration capability fails), `ForEachChild` returns the delegated
failure to the caller, yet the resulting navigator's sticky error slot
is still empty — the failure is not stored, contradicting the claim
that the navigator transitions from clear to faulted. -/
theorem forEachChild_stores_error_counterexample :
    (Navigator.ForEachChild demoOps demoNav fun _ _ => none).1 =
      some (.external "iteration failed") ∧
    ((Navigator.ForEachChild demoOps demoNav fun _ _ => none).2).err =
      none :=
  ⟨rfl, rfl⟩

/-- C8 (amended): a delegated-operation failure raised during
`ForEachChild` on a clear navigator is returned to the caller verbatim,
but it is not stored: the navigator state is returned unchanged, its
sticky error still unset. -/
theorem forEachChild_error_not_stored (ops : PropOps π ε Ev Val)
    (n : Navigator π ε) (cur : π) (callback : Int → π → Option ε) (e : ε)
    (hclear : n.err = none) (hcur : n.Current = some cur)
    (hfail : ops.forEachChild cur callback = some e) :
    ForEachChild ops n callback = (some (.external e), n) := by
  simp [ForEachChild, hclear, hcur, hfail]

/-- C8 witness: the clear demo navigator returns the iteration failure
verbatim while keeping its state (including the empty error slot). -/
theorem forEachChild_error_not_stored_witness :
    (Navigator.ForEachChild demoOps demoNav fun _ _ => none) =
      (some (.external "iteration failed"), demoNav) :=
  Navigator.forEachChild_error_not_stored demoOps demoNav 3
    (fun _ _ => none) "iteration failed" rfl rfl rfl

/-- C10: on a clear navigator, when the delegated mutation itself fails
the failure becomes the sticky error and the notification trace is
empty; when it succeeds with a nil change event the state is unchanged
(still error-free) and the notification trace is empty — for each of
`Add`, `Replace` and `Delete`. -/
theorem mod_failure_or_null_event_skips_notify (ops : PropOps π ε Ev Val)
    (n : Navigator π ε) (cur : π) (value : Val)
    (hclear : n.err = none) (hcur : n.Current = some cur) :
    (∀ e, ops.add cur value = .error e →
      Add ops n value = ({ n with err := some (.external e) }, [])) ∧
    (ops.add cur value = .ok none → Add ops n value = (n, [])) ∧
    (∀ e, ops.replace cur value = .error e →
      Replace ops n value = ({ n with err := some (.external e) }, [])) ∧
    (ops.replace cur value = .ok none → Replace ops n value = (n, [])) ∧
    (∀ e, ops.delete cur = .error e →
      Delete ops n = ({ n with err := some (.external e) }, [])) ∧
    (ops.delete cur = .ok none → Delete ops n = (n, [])) := by
  obtain ⟨stack, err⟩ := n
  simp only [mk.injEq] at hclear
  subst hclear
  have hc : Current ⟨stack, none⟩ = some cur := hcur
  simp only [Current] at hc
  refine ⟨fun e he => ?_, fun he => ?_, fun e he => ?_, fun he => ?_,
    fun e he => ?_, fun he => ?_⟩ <;>
    simp [Add, Replace, Delete, delegateMod, Current, hc, he]

/-- C10 witness: `Add` on the navigator focused on failing node 5 sets
the verbatim sticky error with no notifications; `Replace` on the
navigator focused on node 4 (nil event) changes nothing and notifies
nobody. -/
theorem mod_failure_or_null_event_skips_notify_witness :
    Navigator.Add demoOps demoNavModErr 5 =
      ({ stack := [0, 5], err := some (.external "add failed") }, []) ∧
    Navigator.Replace demoOps demoNavNull 5 = (demoNavNull, []) :=
  ⟨(Navigator.mod_failure_or_null_event_skips_notify demoOps demoNavModErr
      5 5 rfl rfl).1 "add failed" rfl,
   (Navigator.mod_failure_or_null_event_skips_notify demoOps demoNavNull
      4 5 rfl rfl).2.2.2.1 rfl⟩

end Navigator

namespace Navigator

variable {π ε Ev Val : Type}

/-- C1: on a clear navigator, a delegated `Add`, `Replace` or `Delete`
that succeeds with a non-nil change event — whose flattening is accepted
by every stack level — invokes the upward-notification capability
exactly once per stack level, in the reversed stack order (current
first, source last), each invocation receiving the same flattened
sequence produced by one call to `ToEvents`; the navigator state itself
is returned unchanged (still error-free). -/
theorem mod_success_notifies_each_level (ops : PropOps π ε Ev Val)
    (n : Navigator π ε) (cur : π) (value : Val) (ev : Ev)
    (hclear : n.err = none) (hcur : n.Current = some cur)
    (hok : ∀ p ∈ n.stack, ops.notify p (ops.toEvents ev) = none) :
    (ops.add cur value = .ok (some ev) →
      Add ops n value =
        (n, n.stack.reverse.map fun p => (p, ops.toEvents ev))) ∧
    (ops.replace cur value = .ok (some ev) →
      Replace ops n value =
        (n, n.stack.reverse.map fun p => (p, ops.toEvents ev))) ∧
    (ops.delete cur = .ok (some ev) →
      Delete ops n =
        (n, n.stack.reverse.map fun p => (p, ops.toEvents ev))) := by
  obtain ⟨stack, err⟩ := n
  simp only [mk.injEq] at hclear
  subst hclear
  have hc : (stack : List π).getLast? = some cur := hcur
  have hrev : ∀ p ∈ stack.reverse, ops.notify p (ops.toEvents ev) = none :=
    fun p hp => hok p (List.mem_reverse.mp hp)
  have hloop := notifyUp_all_ok ops.notify (ops.toEvents ev)
    stack.reverse hrev
  refine ⟨fun he => ?_, fun he => ?_, fun he => ?_⟩ <;>
    simp [Add, Replace, Delete, delegateMod, Current, hc, he, hloop]

/-- C1 witness: `Add 5` on the clear demo navigator with stack
`[0, 1, 2, 3]` notifies levels 3, 2, 1, 0 in that order, each with the
flattened sequence `[5, 6]`, and leaves the state unchanged. -/
theorem mod_success_notifies_each_level_witness :
    Navigator.Add demoOps demoNav 5 =
      (demoNav, [(3, [5, 6]), (2, [5, 6]), (1, [5, 6]), (0, [5, 6])]) :=
  (Navigator.mod_success_notifies_each_level demoOps demoNav 3 5 5
    rfl rfl (by decide)).1 rfl

/-- C2: on a clear navigator, when a delegated `Add`, `Replace` or
`Delete` succeeds with a non-nil event but the upward notification fails
at some stack level (stated by splitting the reversed stack into an
accepting prefix `pre`, the failing node `p`, and the unvisited
root-ward remainder `post`), the loop visits exactly `pre` and `p` —
no more root-ward level is notified — and the notification failure
becomes the sticky error verbatim. -/
theorem notify_failure_short_circuits (ops : PropOps π ε Ev Val)
    (n : Navigator π ε) (cur p : π) (value : Val) (ev : Ev) (e : ε)
    (pre post : List π)
    (hclear : n.err = none) (hcur : n.Current = some cur)
    (hsplit : n.stack.reverse = pre ++ p :: post)
    (hpre : ∀ q ∈ pre, ops.notify q (ops.toEvents ev) = none)
    (hp : ops.notify p (ops.toEvents ev) = some e) :
    (ops.add cur value = .ok (some ev) →
      Add ops n value =
        ({ n with err := some (.external e) },
          (pre ++ [p]).map fun q => (q, ops.toEvents ev))) ∧
    (ops.replace cur value = .ok (some ev) →
      Replace ops n value =
        ({ n with err := some (.external e) },
          (pre ++ [p]).map fun q => (q, ops.toEvents ev))) ∧
    (ops.delete cur = .ok (some ev) →
      Delete ops n =
        ({ n with err := some (.external e) },
          (pre ++ [p]).map fun q => (q, ops.toEvents ev))) := by
  obtain ⟨stack, err⟩ := n
  simp only [mk.injEq] at hclear
  subst hclear
  have hc : (stack : List π).getLast? = some cur := hcur
  have hrev : (stack : List π).reverse = pre ++ p :: post := hsplit
  have hloop := notifyUp_first_fail ops.notify (ops.toEvents ev) p e hp
    pre post hpre
  refine ⟨fun he => ?_, fun he => ?_, fun he => ?_⟩ <;>
    simp [Add, Replace, Delete, delegateMod, Current, hc, he, hrev, hloop]

/-- C2 witness: `Add 5` on the stack `[0, 9, 3]`, where level 9 vetoes,
notifies only levels 3 and 9 (with `[5, 6]`), never the source 0, and
stores the veto as the sticky error. -/
theorem notify_failure_short_circuits_witness :
    Navigator.Add demoOps demoNavVeto 5 =
      ({ stack := [0, 9, 3], err := some (.external "veto") },
        [(3, [5, 6]), (9, [5, 6])]) :=
  (Navigator.notify_failure_short_circuits demoOps demoNavVeto 3 9 5 5
    "veto" [3] [0] rfl rfl rfl (by decide) rfl).1 rfl

end Navigator

namespace Navigator

variable {π ε Ev Val : Type}

/-- A faulted navigator is frozen by every navigation step. -/
theorem applyStep_faulted (ops : PropOps π ε Ev Val) (n : Navigator π ε)
    (s : NavStep π) (e : NavErr ε) (he : n.err = some e) :
    applyStep ops n s = n := by
  cases s <;> simp [applyStep, Dot, At, Where, he]

/-- A faulted navigator is frozen by every sequence of navigation steps. -/
theorem runSteps_faulted (ops : PropOps π ε Ev Val) :
    ∀ (l : List (NavStep π)) (n : Navigator π ε) (e : NavErr ε),
      n.err = some e → runSteps ops n l = n
  | [], _, _, _ => rfl
  | s :: rest, n, e, he => by
    rw [runSteps, applyStep_faulted ops n s e he,
      runSteps_faulted ops rest n e he]

/-- On a clear navigator with a nonempty stack, one navigation step
either resolves (no error, stack one element longer) or fails (error
set, stack unchanged). -/
theorem applyStep_cases (ops : PropOps π ε Ev Val) (n : Navigator π ε)
    (s : NavStep π) (hclear : n.err = none) (hne : n.stack ≠ []) :
    ((applyStep ops n s).err = none ∧
      (applyStep ops n s).stack.length = n.stack.length + 1 ∧
      (applyStep ops n s).stack ≠ []) ∨
    ((∃ e, (applyStep ops n s).err = some e) ∧
      (applyStep ops n s).stack = n.stack) := by
  obtain ⟨stack, err⟩ := n
  simp only [mk.injEq] at hclear
  subst hclear
  obtain ⟨cur, hc⟩ := exists_getLast?_eq_some (π := π) hne
  cases s with
  | dot name =>
    cases hr : ops.childAtName cur name with
    | error e => right; simp [applyStep, Dot, Current, hc, hr]
    | ok child => left; simp [applyStep, Dot, Current, hc, hr]
  | atIdx index =>
    cases hr : ops.childAtIdx cur index with
    | error e => right; simp [applyStep, At, Current, hc, hr]
    | ok child => left; simp [applyStep, At, Current, hc, hr]
  | whereIs criteria =>
    cases hr : ops.findChild cur criteria with
    | none => right; simp [applyStep, Where, Current, hc, hr]
    | some child => left; simp [applyStep, Where, Current, hc, hr]

/-- Running navigation steps from a clear state grows the stack by the
number of steps that resolve before the first failure. -/
theorem runSteps_depth (ops : PropOps π ε Ev Val) :
    ∀ (l : List (NavStep π)) (n : Navigator π ε),
      n.err = none → n.stack ≠ [] →
      (runSteps ops n l).stack.length =
        n.stack.length + succPrefix ops n l
  | [], n, _, _ => by simp [runSteps, succPrefix]
  | s :: rest, n, hclear, hne => by
    rcases applyStep_cases ops n s hclear hne with
      ⟨h1, h2, h3⟩ | ⟨⟨e, h1⟩, h2⟩
    · have ih := runSteps_depth ops rest (applyStep ops n s) h1 h3
      rw [runSteps, succPrefix, ih, h2]
      simp [h1]
      omega
    · rw [runSteps, succPrefix,
        runSteps_faulted ops rest (applyStep ops n s) e h1, h2]
      simp [h1]

/-- C3: for a freshly created navigator and any finite sequence of
`Dot`, `At` and `Where` calls, the final depth is 1 plus the number of
calls that resolved successfully before the first failure (all of them
when none fails). -/
theorem depth_eq_one_add_successful_prefix (ops : PropOps π ε Ev Val)
    (property : π) (steps : List (NavStep π)) :
    (runSteps ops (Navigate property) steps).Depth =
      1 + succPrefix ops (Navigate property) steps := by
  have h := runSteps_depth ops steps (Navigate property) rfl
    (by simp [Navigate])
  simp only [Navigate, List.length_singleton] at h
  simp only [Depth, Navigate]
  omega

end Navigator

namespace Navigator

variable {π ε Ev Val : Type}

/-- Appending to a list keeps it nonempty and keeps its head. -/
theorem stack_extends_head {l t : List π} {p : π} (h : l.head? = some p) :
    l ++ t ≠ [] ∧ (l ++ t).head? = some p := by
  cases l with
  | nil => simp at h
  | cons a r => simpa using h

/-- Dropping the last element of a list of length above one keeps it
nonempty and keeps its head. -/
theorem dropLast_keeps_head {l : List π} {p : π} (hlen : 1 < l.length)
    (h : l.head? = some p) :
    l.dropLast ≠ [] ∧ l.dropLast.head? = some p := by
  match l, hlen with
  | a :: b :: t, _ =>
    refine ⟨by simp, ?_⟩
    simpa using h

/-- The `ForEachChild` method leaves the navigator state untouched. -/
theorem forEachChild_state (ops : PropOps π ε Ev Val) (n : Navigator π ε)
    (callback : Int → π → Option ε) :
    (ForEachChild ops n callback).2 = n := by
  cases he : n.err with
  | some e => simp [ForEachChild, he]
  | none =>
    cases hc : n.Current with
    | none => simp [ForEachChild, he, hc]
    | some cur => simp [ForEachChild, he, hc]

/-- The `Dot` method only ever appends to the stack. -/
theorem Dot_stack_shape (ops : PropOps π ε Ev Val) (n : Navigator π ε)
    (name : String) : ∃ t, (Dot ops n name).stack = n.stack ++ t := by
  unfold Dot
  split
  · exact ⟨[], by simp⟩
  · split
    · exact ⟨[], by simp⟩
    · split
      · exact ⟨[], by simp⟩
      · exact ⟨[_], rfl⟩

/-- The `At` method only ever appends to the stack. -/
theorem At_stack_shape (ops : PropOps π ε Ev Val) (n : Navigator π ε)
    (index : Int) : ∃ t, (At ops n index).stack = n.stack ++ t := by
  unfold At
  split
  · exact ⟨[], by simp⟩
  · split
    · exact ⟨[], by simp⟩
    · split
      · exact ⟨[], by simp⟩
      · exact ⟨[_], rfl⟩

/-- The `Where` method only ever appends to the stack. -/
theorem Where_stack_shape (ops : PropOps π ε Ev Val) (n : Navigator π ε)
    (criteria : π → Bool) :
    ∃ t, (Where ops n criteria).stack = n.stack ++ t := by
  unfold Where
  split
  · exact ⟨[], by simp⟩
  · split
    · exact ⟨[], by simp⟩
    · split
      · exact ⟨[], by simp⟩
      · exact ⟨[_], rfl⟩

/-- One Navigator method call keeps the stack nonempty and keeps its
first element. -/
theorem applyOp_invariant (ops : PropOps π ε Ev Val) (n : Navigator π ε)
    (o : NavOp π ε Ev Val) (p : π) (hne : n.stack ≠ [])
    (hh : n.stack.head? = some p) :
    (applyOp ops n o).stack ≠ [] ∧ (applyOp ops n o).stack.head? = some p := by
  cases o with
  | dot name =>
    obtain ⟨t, ht⟩ := Dot_stack_shape ops n name
    simpa [applyOp, ht] using stack_extends_head hh
  | atIdx index =>
    obtain ⟨t, ht⟩ := At_stack_shape ops n index
    simpa [applyOp, ht] using stack_extends_head hh
  | whereIs criteria =>
    obtain ⟨t, ht⟩ := Where_stack_shape ops n criteria
    simpa [applyOp, ht] using stack_extends_head hh
  | retract =>
    simp only [applyOp]
    unfold Retract
    split
    · next hgt => exact dropLast_keeps_head hgt hh
    · exact ⟨hne, hh⟩
  | clearError => exact ⟨hne, hh⟩
  | add value => exact ⟨hne, hh⟩
  | replace value => exact ⟨hne, hh⟩
  | delete => exact ⟨hne, hh⟩
  | forEachChild callback =>
    simp only [applyOp, forEachChild_state]
    exact ⟨hne, hh⟩

/-- A sequence of Navigator method calls keeps the stack nonempty and
keeps its first element. -/
theorem runOps_invariant (ops : PropOps π ε Ev Val) (p : π) :
    ∀ (l : List (NavOp π ε Ev Val)) (n : Navigator π ε),
      n.stack ≠ [] → n.stack.head? = some p →
      (runOps ops n l).stack ≠ [] ∧ (runOps ops n l).stack.head? = some p
  | [], _, hne, hh => ⟨hne, hh⟩
  | o :: rest, n, hne, hh => by
    obtain ⟨h1, h2⟩ := applyOp_invariant ops n o p hne hh
    exact runOps_invariant ops p rest (applyOp ops n o) h1 h2

/-- C9: running any finite sequence of Navigator method calls from a
freshly created navigator keeps the stack length at least 1, keeps the
source (element 0) equal to the property the navigator was created
with, and `Current()` is always the last stack element. -/
theorem stack_invariant (ops : PropOps π ε Ev Val) (property : π)
    (l : List (NavOp π ε Ev Val)) :
    1 ≤ (runOps ops (Navigate property) l).Depth ∧
    (runOps ops (Navigate property) l).Source = some property ∧
    (runOps ops (Navigate property) l).Current =
      (runOps ops (Navigate property) l).stack.getLast? := by
  obtain ⟨h1, h2⟩ := runOps_invariant ops property l (Navigate property)
    (by simp [Navigate]) (by simp [Navigate])
  exact ⟨List.length_pos.mpr h1, h2, rfl⟩

end Navigator
